import Mathlib

/-!
Verification of the `Slate` versioned-value holder and the `AccessCounter`
class from the magicmethods repository (src/listings/slate.py,
src/magicmethods.py).

Modelling choices, written down once:

* Python objects occupying a "value" slot are modelled as `Option V`:
  `some v` is a real value, `none` is the Python `None` sentinel (used by
  `__setstate__` to mark `value` and `last_change` as unset).
* The timestamp source `time.asctime()` is external to the class; every
  operation that reads the clock takes the token the clock returned as an
  explicit argument of type `T`.  `time.asctime()` has second-level
  resolution, so two calls may return the same token: nothing in the model
  assumes tokens are distinct.
* A Python `dict` is modelled as an association list together with the
  update function `dictSet`, which reproduces CPython semantics exactly:
  assigning to an existing key overwrites its value in place, assigning a
  fresh key appends it at the end (insertion order).
* A mutating Python method becomes a function from the receiver state to
  the new state (paired with its output where the method produces any).
-/

/-- Python dict assignment `d[k] = v` on an association list: overwrite the
value at the first (unique) occurrence of `k` in place, or append `(k, v)`
when `k` is not a key. -/
def dictSet {K A : Type} [DecidableEq K] (k : K) (v : A) : List (K × A) → List (K × A)
  | [] => [(k, v)]
  | (k', v') :: rest => if k' = k then (k', v) :: rest else (k', v') :: dictSet k v rest

/-- The state of a `Slate` object (slate.py / magicmethods.py): attribute
`value` holds the current value, `last_change` the token the clock returned
when that value was adopted, `history` the dict mapping superseded tokens to
superseded values.  `value` and `last_change` are `none` exactly when Python
would hold `None` there; history keys have type `Option T` because
`Slate.change` uses the attribute `last_change` — possibly `None` — as the
dict key. -/
structure Slate (V T : Type) where
  value : Option V
  last_change : Option T
  history : List (Option T × Option V)
deriving DecidableEq

/-- `Slate.__init__(self, value)`: store the value, stamp `last_change`
with the token `t` the clock returned, start with an empty history. -/
def Slate.init {V T : Type} (value : Option V) (t : T) : Slate V T :=
  { value := value, last_change := some t, history := [] }

/-- `Slate.change(self, new_value)`: commit the previous value to history
under the previous `last_change` key (`self.history[self.last_change] =
self.value`), then install the new value and the token `t` the clock
returned for this call. -/
def Slate.change {V T : Type} [DecidableEq T] (s : Slate V T) (new_value : Option V)
    (t : T) : Slate V T :=
  { value := new_value, last_change := some t,
    history := dictSet s.last_change s.value s.history }

/-- String form the Python `%s` conversion produces for an object in a
value slot: `str(None)` is `"None"`, otherwise the string form of the
value itself. -/
def pyStr {A : Type} [ToString A] : Option A → String
  | none => "None"
  | some a => toString a

/-- `Slate.print_changes(self)`: the list of lines printed to stdout — a
constant header, then one `"%s\t %s" % (k, v)` line per history entry in
dict iteration order — paired with the receiver state after the call (the
method only reads). -/
def Slate.print_changes {V T : Type} [ToString V] [ToString T] (s : Slate V T) :
    List String × Slate V T :=
  ("Changelog for Slate object:" ::
      s.history.map (fun kv => pyStr kv.1 ++ "\t " ++ pyStr kv.2),
    s)

/-- `Slate.__getstate__(self)`: return `self.history` alone — deliberately
not `value` or `last_change` — paired with the receiver state after the
call (the method only reads). -/
def Slate.getstate {V T : Type} (s : Slate V T) :
    List (Option T × Option V) × Slate V T :=
  (s.history, s)

/-- `Slate.__setstate__(self, state)`: pickle reconstruction installs the
unpickled state as `history` and sets `value` and `last_change` to `None`;
every attribute of the resulting object is written here, so the result does
not depend on the blank receiver. -/
def Slate.setstate {V T : Type} (state : List (Option T × Option V)) : Slate V T :=
  { value := none, last_change := none, history := state }

/-- A sequence of `change` calls: each list element carries the argument
passed and the token the clock returned during that call, in call order. -/
def runChanges {V T : Type} [DecidableEq T] (s : Slate V T) :
    List (Option V × T) → Slate V T
  | [] => s
  | (nv, t) :: rest => runChanges (s.change nv t) rest

/-- The history a collision-free run is expected to build: starting from
current value `v0` adopted at token `t0`, each change appends the pair that
was current immediately before it. -/
def expectedHistory {V T : Type} (v0 : Option V) (t0 : T) :
    List (Option V × T) → List (Option T × Option V)
  | [] => []
  | (v1, t1) :: rest => (some t0, v0) :: expectedHistory v1 t1 rest

/-- The state of an `AccessCounter` object (magicmethods.py): the
`__dict__` entries `counter` and `value`; `value` is `none` when the
attribute has been deleted from the instance dict. -/
structure AccessCounter (V : Type) where
  counter : Int
  value : Option V
deriving DecidableEq

/-- `AccessCounter.__init__(self, val)`: writes both slots through
`self.__dict__` directly, bypassing `__setattr__`, so the counter starts
at 0. -/
def AccessCounter.init {V : Type} (val : V) : AccessCounter V :=
  { counter := 0, value := some val }

/-- `AccessCounter.__setattr__(self, name, value)` from magicmethods.py:
when the target name is `"value"`, bump the counter and store the value;
for any other name the body is skipped, so the assignment is dropped. -/
def AccessCounter.setattr {V : Type} (s : AccessCounter V) (name : String)
    (v : V) : AccessCounter V :=
  if name = "value" then { counter := s.counter + 1, value := some v } else s

/-- `AccessCounter.__delattr__(self, name)` from magicmethods.py: when the
target name is `"value"`, bump the counter and delete the slot; `del
self.__dict__["value"]` raises `KeyError` — after the increment — when the
slot is already gone, which the Bool component records. -/
def AccessCounter.delattr {V : Type} (s : AccessCounter V) (name : String) :
    AccessCounter V × Bool :=
  if name = "value" then
    ({ counter := s.counter + 1, value := none }, s.value.isNone)
  else (s, false)

/-- Untyped Python values, as far as the argument of `Slate.__setstate__`
is concerned: a dict, a string, an int, or `None`. -/
inductive PyObj : Type where
  | pyDict : List (PyObj × PyObj) → PyObj
  | pyStrV : String → PyObj
  | pyInt : Int → PyObj
  | pyNone : PyObj

/-- The error the spec says deserialization signals on a malformed
serialized form. -/
inductive FormatError : Type where
  | formatError : FormatError
deriving DecidableEq

/-- The three attributes `Slate.__setstate__` writes, on untyped values. -/
structure SlateDyn where
  value : PyObj
  last_change : PyObj
  history : PyObj

/-- `Slate.__setstate__(self, state)` on an arbitrary unpickled object:
the body is two plain assignments, so there is no validation and no raise
site; the `Except` wrapper records whether a failure is signalled. -/
def setstateDyn (state : PyObj) : Except FormatError SlateDyn :=
  .ok { value := .pyNone, last_change := .pyNone, history := state }

/-- Whether an untyped value is a mapping whose keys are all timestamp
tokens (strings, the shape `time.asctime()` produces). -/
def isTimestampMapping : PyObj → Bool
  | .pyDict kvs => kvs.all fun kv =>
      match kv.1 with
      | .pyStrV _ => true
      | _ => false
  | _ => false

/-- Whether a computation modelled with `Except` signalled an error. -/
def isFailure {E A : Type} : Except E A → Bool
  | .error _ => true
  | .ok _ => false

/-- Assigning a key that is not yet in the dict appends the pair at the
end, exactly as CPython insertion order does. -/
theorem dictSet_of_not_mem_keys {K A : Type} [DecidableEq K] {k : K} {v : A}
    {l : List (K × A)} (hk : k ∉ l.map Prod.fst) :
    dictSet k v l = l ++ [(k, v)] := by
  induction l with
  | nil => rfl
  | cons p rest ih =>
      obtain ⟨k', v'⟩ := p
      simp only [List.map_cons, List.mem_cons, not_or] at hk
      simp only [dictSet]
      rw [if_neg (fun h => hk.1 h.symm), ih hk.2]
      rfl

/-- A dict assignment grows the dict by at most one entry. -/
theorem dictSet_length_le {K A : Type} [DecidableEq K] (k : K) (v : A)
    (l : List (K × A)) : (dictSet k v l).length ≤ l.length + 1 := by
  induction l with
  | nil => simp [dictSet]
  | cons p rest ih =>
      obtain ⟨k', v'⟩ := p
      simp only [dictSet]
      by_cases h : k' = k
      · simp [h]
      · simp only [if_neg h, List.length_cons]
        omega

/-- Every value held by the dict after an assignment is either the value
just assigned or one that was already held. -/
theorem mem_snd_of_mem_dictSet {K A : Type} [DecidableEq K] {k : K} {v : A}
    {l : List (K × A)} {x : A}
    (hx : x ∈ (dictSet k v l).map Prod.snd) : x = v ∨ x ∈ l.map Prod.snd := by
  induction l with
  | nil => simpa [dictSet] using hx
  | cons p rest ih =>
      obtain ⟨k', v'⟩ := p
      by_cases h : k' = k
      · simp only [dictSet, if_pos h, List.map_cons, List.mem_cons] at hx
        rcases hx with h1 | h1
        · exact Or.inl h1
        · exact Or.inr (List.mem_cons_of_mem _ h1)
      · simp only [dictSet, if_neg h, List.map_cons, List.mem_cons] at hx
        rcases hx with h1 | h1
        · exact Or.inr (by simp [h1])
        · rcases ih h1 with h2 | h2
          · exact Or.inl h2
          · exact Or.inr (List.mem_cons_of_mem _ h2)

/-- The expected collision-free history has one entry per change call. -/
theorem expectedHistory_length {V T : Type} (v0 : Option V) (t0 : T)
    (cs : List (Option V × T)) :
    (expectedHistory v0 t0 cs).length = cs.length := by
  induction cs generalizing v0 t0 with
  | nil => rfl
  | cons c rest ih =>
      obtain ⟨v1, t1⟩ := c
      simp [expectedHistory, ih]

/-- Running a collision-free sequence of changes from a state whose clock
tokens are all fresh for the current history appends exactly the expected
entries, in call order. -/
theorem runChanges_history_of_nodup {V T : Type} [DecidableEq T]
    (cs : List (Option V × T)) (v : Option V) (t : T)
    (hist : List (Option T × Option V))
    (hnd : (t :: cs.map Prod.snd).Nodup)
    (hfresh : ∀ t' ∈ t :: cs.map Prod.snd, some t' ∉ hist.map Prod.fst) :
    (runChanges ⟨v, some t, hist⟩ cs).history = hist ++ expectedHistory v t cs := by
  induction cs generalizing v t hist with
  | nil => simp [runChanges, expectedHistory]
  | cons c rest ih =>
      obtain ⟨nv, nt⟩ := c
      simp only [List.map_cons] at hnd hfresh
      have hkey : (some t : Option T) ∉ hist.map Prod.fst :=
        hfresh t (List.mem_cons_self _ _)
      have ht : t ∉ nt :: rest.map Prod.snd := (List.nodup_cons.mp hnd).1
      have hnd' : (nt :: rest.map Prod.snd).Nodup := (List.nodup_cons.mp hnd).2
      have hfresh' : ∀ t' ∈ nt :: rest.map Prod.snd,
          some t' ∉ (hist ++ [(some t, v)]).map Prod.fst := by
        intro t' ht'
        have h1 : some t' ∉ hist.map Prod.fst :=
          hfresh t' (List.mem_cons_of_mem _ ht')
        have h2 : t' ≠ t := fun h => ht (h ▸ ht')
        simp [List.map_append, h1, h2]
      have hstep : runChanges (⟨v, some t, hist⟩ : Slate V T) ((nv, nt) :: rest)
          = runChanges (⟨nv, some nt, hist ++ [(some t, v)]⟩ : Slate V T) rest := by
        simp [runChanges, Slate.change, dictSet_of_not_mem_keys hkey]
      rw [hstep, ih nv nt (hist ++ [(some t, v)]) hnd' hfresh']
      simp [expectedHistory]

/-- If the current value and all future change arguments are pairwise
distinct and none of them already sits in the history, the final current
value never appears among the history values. -/
theorem runChanges_value_not_mem {V T : Type} [DecidableEq T]
    (cs : List (Option V × T)) (s : Slate V T)
    (hnd : (s.value :: cs.map Prod.fst).Nodup)
    (hdis : ∀ x ∈ s.value :: cs.map Prod.fst, x ∉ s.history.map Prod.snd) :
    (runChanges s cs).value ∉ (runChanges s cs).history.map Prod.snd := by
  induction cs generalizing s with
  | nil => exact hdis s.value (List.mem_cons_self _ _)
  | cons c rest ih =>
      obtain ⟨nv, nt⟩ := c
      simp only [List.map_cons] at hnd hdis
      have hval : s.value ∉ nv :: rest.map Prod.fst := (List.nodup_cons.mp hnd).1
      have hnd' : (nv :: rest.map Prod.fst).Nodup := (List.nodup_cons.mp hnd).2
      have hdis' : ∀ x ∈ nv :: rest.map Prod.fst,
          x ∉ (s.change nv nt).history.map Prod.snd := by
        intro x hx hmem
        rcases mem_snd_of_mem_dictSet hmem with h | h
        · exact hval (h ▸ hx)
        · exact hdis x (List.mem_cons_of_mem _ hx) h
      simp only [runChanges]
      exact ih (s.change nv nt) hnd' hdis'

/-- C1: round-trip law — `__setstate__` applied to the output of
`__getstate__` rebuilds an object whose `history` equals the history of
the original, and in particular a freshly constructed object (no `change`
calls) serializes to an empty mapping and round-trips that emptiness. -/
theorem C1_roundtrip_history {V T : Type} :
    (∀ s : Slate V T, (Slate.setstate (s.getstate).1).history = s.history) ∧
    (∀ (v0 : Option V) (t0 : T),
      ((Slate.init v0 t0 : Slate V T).getstate).1 = [] ∧
      (Slate.setstate (((Slate.init v0 t0 : Slate V T).getstate).1)).history = []) :=
  ⟨fun _ => rfl, fun _ _ => ⟨rfl, rfl⟩⟩

/-- C3: reset law — after deserialization the `value` and `last_change`
attributes are the `None` sentinel, whatever they held before the object
was serialized. -/
theorem C3_reset_law {V T : Type} (s : Slate V T) :
    (Slate.setstate ((s.getstate).1) : Slate V T).value = none ∧
    (Slate.setstate ((s.getstate).1) : Slate V T).last_change = none :=
  ⟨rfl, rfl⟩

/-- C4: a single `change` call commits the old value to history under the
old `last_change` key (with dict overwrite semantics at that exact key),
installs the new value and the fresh clock token, and grows the history by
at most one entry; concretely, constructing with value `0` and calling
`change 1` leaves one history entry mapping the construction token to `0`
and the current value `1`. -/
theorem C4_change_step {V T : Type} [DecidableEq T] (s : Slate V T)
    (nv : Option V) (t : T) :
    (s.change nv t).value = nv ∧
    (s.change nv t).last_change = some t ∧
    (s.change nv t).history = dictSet s.last_change s.value s.history ∧
    (s.change nv t).history.length ≤ s.history.length + 1 ∧
    (∀ t0 t1 : T,
      ((Slate.init (some (0 : ℕ)) t0 : Slate ℕ T).change (some 1) t1)
        = ⟨some 1, some t1, [(some t0, some 0)]⟩) :=
  ⟨rfl, rfl, rfl, dictSet_length_le _ _ _, fun _ _ => rfl⟩

/-- C9: `__getstate__` is non-mutating and is the identity on the history:
it returns exactly the `history` attribute and leaves `value`,
`last_change` and `history` of the receiver untouched. -/
theorem C9_getstate_pure {V T : Type} (s : Slate V T) :
    (s.getstate).1 = s.history ∧ (s.getstate).2 = s ∧
    (s.getstate).2.value = s.value ∧
    (s.getstate).2.last_change = s.last_change ∧
    (s.getstate).2.history = s.history :=
  ⟨rfl, rfl, rfl, rfl, rfl⟩

/-- C5 counterexample: the claim says `__setstate__` fails exactly when the
state is not a mapping of timestamp tokens to values, but the hook has no
failure path at all — on the non-mapping state `42` it succeeds, so failing
and being a non-mapping do not coincide there. -/
theorem C5_counterexample :
    ¬ (isFailure (setstateDyn (PyObj.pyInt 42))
        = !(isTimestampMapping (PyObj.pyInt 42))) := by
  decide

/-- C5 amended: `__setstate__` never fails, on mappings and non-mappings
alike — its body is two unconditional assignments, so it installs whatever
state it is given as `history` and resets `value` and `last_change` to
`None`, with no validation of any kind. -/
theorem C5_setstate_never_fails (state : PyObj) :
    isFailure (setstateDyn state) = false ∧
    ∃ s : SlateDyn, setstateDyn state = .ok s ∧
      s.history = state ∧ s.value = .pyNone ∧ s.last_change = .pyNone :=
  ⟨rfl, _, rfl, rfl, rfl, rfl⟩

/-- C7 counterexample: the claim says an empty history produces no output
lines, but `print_changes` prints its constant header line regardless, so
on a freshly constructed object the printed output is not empty. -/
theorem C7_counterexample :
    ((Slate.init (some (0 : ℕ)) (0 : ℕ) : Slate ℕ ℕ).print_changes).1 ≠ [] := by
  decide

/-- C7 amended: `print_changes` is a pure observer that never fails — it
leaves the receiver (its `history`, `value` and `last_change`) unchanged
and prints the constant header followed by one line per history entry, so
an empty history produces no entry lines, only the header. -/
theorem C7_print_changes_pure {V T : Type} [ToString V] [ToString T]
    (s : Slate V T) :
    (s.print_changes).2 = s ∧
    (s.print_changes).1
      = "Changelog for Slate object:"
          :: s.history.map (fun kv => pyStr kv.1 ++ "\t " ++ pyStr kv.2) ∧
    ((Slate.init (none : Option ℕ) (0 : ℕ) : Slate ℕ ℕ).print_changes).1
      = ["Changelog for Slate object:"] :=
  ⟨rfl, rfl, rfl⟩

/-- C2 counterexample: the claim says history size after N changes is
exactly N for every sequence, but when the second-resolution clock returns
the same token for the construction and for both change calls, the second
commit overwrites the first dict entry and the history holds one entry
instead of two. -/
theorem C2_counterexample :
    ¬ ((runChanges (Slate.init (some (0 : ℕ)) (0 : ℕ))
        [(some 1, 0), (some 2, 0)]).history.length = 2) := by
  decide

/-- C2 amended: when the clock tokens drawn at construction and at each
`change` call are pairwise distinct (no same-second collisions), the
history after N changes has exactly N entries, the i-th entry keyed by the
token current before the i-th call and holding the value that was current
immediately before that call — the content `expectedHistory` spells out. -/
theorem C2_history_tracks_changes {V T : Type} [DecidableEq T]
    (v0 : Option V) (t0 : T) (cs : List (Option V × T))
    (hnd : (t0 :: cs.map Prod.snd).Nodup) :
    (runChanges (Slate.init v0 t0) cs).history = expectedHistory v0 t0 cs ∧
    (runChanges (Slate.init v0 t0) cs).history.length = cs.length := by
  have h := runChanges_history_of_nodup cs v0 t0 [] hnd (by simp)
  have h1 : (runChanges (Slate.init v0 t0) cs).history = expectedHistory v0 t0 cs := by
    simpa using h
  exact ⟨h1, by rw [h1, expectedHistory_length]⟩

/-- C2 witness: the amended statement instantiated on a run with tokens
0, 1, 2 and two change calls. -/
theorem C2_history_tracks_changes_witness :
    (((0 : ℕ) :: ([((some 1 : Option ℕ), (1 : ℕ)), (some 2, 2)].map Prod.snd)).Nodup) ∧
    ((runChanges (Slate.init (some (0 : ℕ)) 0) [(some 1, 1), (some 2, 2)]).history
        = expectedHistory (some 0) 0 [(some 1, 1), (some 2, 2)] ∧
      (runChanges (Slate.init (some (0 : ℕ)) 0)
        [(some 1, 1), (some 2, 2)]).history.length = 2) :=
  ⟨by decide,
    C2_history_tracks_changes (some 0) 0 [(some 1, 1), (some 2, 2)] (by decide)⟩

/-- C6 counterexample: the claim says the history never contains the
current value, but re-adopting an earlier value puts an equal value in both
places — construct with 0, change to 1, change back to 0 (all at distinct
tokens): the current value 0 is then among the history values. -/
theorem C6_counterexample :
    (runChanges (Slate.init (some (0 : ℕ)) (0 : ℕ)) [(some 1, 1), (some 0, 2)]).value
      ∈ (runChanges (Slate.init (some (0 : ℕ)) (0 : ℕ))
          [(some 1, 1), (some 0, 2)]).history.map Prod.snd := by
  decide

/-- C6 amended: in every state reached from construction by `change` calls
whose adopted values (the initial value and every change argument) are
pairwise distinct — i.e. no value is ever re-adopted — the history never
contains the current value: it holds only superseded values. -/
theorem C6_history_only_superseded {V T : Type} [DecidableEq T]
    (v0 : Option V) (t0 : T) (cs : List (Option V × T))
    (hnd : (v0 :: cs.map Prod.fst).Nodup) :
    (runChanges (Slate.init v0 t0) cs).value
      ∉ (runChanges (Slate.init v0 t0) cs).history.map Prod.snd :=
  runChanges_value_not_mem cs (Slate.init v0 t0) hnd
    (by intro x _ hx; simp [Slate.init] at hx)

/-- C6 witness: the amended statement instantiated on the run 0 → 1 → 2
with distinct values. -/
theorem C6_history_only_superseded_witness :
    (((some 0 : Option ℕ)
        :: ([((some 1 : Option ℕ), (1 : ℕ)), (some 2, 2)].map Prod.fst)).Nodup) ∧
    (runChanges (Slate.init (some (0 : ℕ)) 0) [(some 1, 1), (some 2, 2)]).value
      ∉ (runChanges (Slate.init (some (0 : ℕ)) 0)
          [(some 1, 1), (some 2, 2)]).history.map Prod.snd :=
  ⟨by decide,
    C6_history_only_superseded (some 0) 0 [(some 1, 1), (some 2, 2)] (by decide)⟩

/-- C8 counterexample: the claim says a `change` on a deserialized object
adds an entry keyed at the fresh timestamp of that call, but the code keys
the commit by the OLD `last_change` — the `None` sentinel after
deserialization — so in the concrete scenario (construct "a" at token 0,
change to "b" at 1, serialize, deserialize, change to "c" at 2) no history
entry carries the fresh token 2. -/
theorem C8_counterexample :
    some (2 : ℕ) ∉
      (((Slate.setstate
            ((((Slate.init (some "a") (0 : ℕ) : Slate String ℕ).change
                (some "b") 1).getstate).1)
          : Slate String ℕ).change (some "c") 2).history).map Prod.fst ∧
    ((Slate.setstate
          ((((Slate.init (some "a") (0 : ℕ) : Slate String ℕ).change
              (some "b") 1).getstate).1)
        : Slate String ℕ).change (some "c") 2).history
      = [(some 0, some "a"), (none, none)] := by
  constructor <;> decide

/-- C8 amended: in the scenario — construct with "a", change to "b",
serialize, deserialize into v2 — v2 has the single history entry mapping
the construction token to "a" and unset `value` and `last_change`; a
subsequent `change "c"` succeeds and adds exactly one new entry, keyed at
the `None` sentinel (the old `last_change`), which collides with no
pre-deserialization key (those are real tokens), while the fresh token of
the call becomes the new `last_change`. -/
theorem C8_change_after_unpickle {T : Type} [DecidableEq T] (t0 t1 t2 : T) :
    let v2 : Slate String T :=
      Slate.setstate ((((Slate.init (some "a") t0 : Slate String T).change
        (some "b") t1).getstate).1)
    v2.history = [(some t0, some "a")] ∧ v2.value = none ∧ v2.last_change = none ∧
    (v2.change (some "c") t2).history = [(some t0, some "a"), (none, none)] ∧
    (v2.change (some "c") t2).history.length = v2.history.length + 1 ∧
    (v2.change (some "c") t2).value = some "c" ∧
    (v2.change (some "c") t2).last_change = some t2 := by
  intro v2
  refine ⟨rfl, rfl, rfl, ?_, ?_, rfl, rfl⟩ <;>
    simp [v2, Slate.change, Slate.setstate, Slate.getstate, Slate.init, dictSet]

/-- C10: on the magicmethods.py `AccessCounter`, assigning or deleting the
attribute named "value" increments the counter by exactly one (the
assignment also stores the value), while an assignment targeting any other
name leaves the whole instance state unchanged — it is silently dropped. -/
theorem C10_access_counter {V : Type} (s : AccessCounter V) (name : String)
    (v : V) :
    (s.setattr "value" v).counter = s.counter + 1 ∧
    (s.setattr "value" v).value = some v ∧
    ((s.delattr "value").1).counter = s.counter + 1 ∧
    (name ≠ "value" → s.setattr name v = s) := by
  refine ⟨by simp [AccessCounter.setattr], by simp [AccessCounter.setattr],
    by simp [AccessCounter.delattr], fun h => by simp [AccessCounter.setattr, h]⟩

/-- C10 witness: the statement instantiated on a counter holding 5, with
the foreign attribute name "other". -/
theorem C10_access_counter_witness :
    ("other" ≠ "value") ∧
    ((AccessCounter.init (5 : ℕ)).setattr "value" 7).counter
        = (AccessCounter.init (5 : ℕ)).counter + 1 ∧
    (AccessCounter.init (5 : ℕ)).setattr "other" 7 = AccessCounter.init (5 : ℕ) :=
  ⟨by decide, (C10_access_counter (AccessCounter.init 5) "other" 7).1,
    (C10_access_counter (AccessCounter.init 5) "other" 7).2.2.2 (by decide)⟩
